import Mathlib

/-!
Verification development for the `datacollect` repository: a shallow embedding of
the two turn-based collector environments
(`src/collector/environment/collector.py`, the continuous-plane variant, and
`src/datacollect/environments/graph_collector/graph_collector.py`, the graph
variant) together with theorems settling the frozen specification claims.

Agents are identified by their index (the source uses the strings
`"agent_i"`).  The per-agent Python dicts (`rewards`, `terminations`,
`truncations`, `_cumulative_rewards`, ...) all share the `agents` list as
their key set at every reachable state, so they are embedded as total
functions `Nat → _` together with the `agents` list playing the role of the
common key set; deleting a key is embedded as removing the id from `agents`.
-/

/-- Extracts the success value of an `Except`, with an explicit default for the
error case (used to state closed facts about concrete runs). -/
def okD {ε α : Type} (e : Except ε α) (d : α) : α :=
  match e with
  | .ok a => a
  | .error _ => d

/-- Tests whether an `Except` value is a success. -/
def isOk {ε α : Type} (e : Except ε α) : Bool :=
  match e with
  | .ok _ => true
  | .error _ => false

/-- Modelled from the spec (§4.4) and the pettingzoo `agent_selector` used by
both variants (not under `src/`): the round-robin cursor keeps an index `cur`
into the (aliased, possibly shrunk) `agents` list; `next()` returns
`agents[cur % len]` and advances the cursor to `(cur + 1) % len`.  On an empty
list the source raises `ZeroDivisionError`; that case is unreachable at every
call site in the embedding (guarded by non-emptiness) and is mapped to a junk
value. -/
def selNext (agents : List Nat) (cur : Nat) : Nat × Nat :=
  if h : agents.length = 0 then (0, 0)
  else
    (agents.get ⟨cur % agents.length, Nat.mod_lt _ (Nat.pos_of_ne_zero h)⟩,
      (cur + 1) % agents.length)

theorem selNext_fst_mem (agents : List Nat) (cur : Nat) (h : agents ≠ []) :
    (selNext agents cur).1 ∈ agents := by
  unfold selNext
  rw [dif_neg (by simpa using h)]
  exact agents.get_mem _ _

namespace Graph

/-- Per-agent mobile entity of the graph variant.  Modelled from the spec
(§3 "Collector"): current node `label` and display position, an append-only
`path` of visited positions, and the three collection statistics.  The class
itself lives in `datacollect/utils/objects.py`, which is not under `src/`. -/
structure Collector where
  pos : ℚ × ℚ
  label : Nat
  path : List (ℚ × ℚ)
  total : Nat
  unique : Nat
  cheated : Nat
deriving Repr, DecidableEq

/-- Modelled from the spec (§4.3 `move`): unconditionally update
position/label and append to the path. -/
def Collector.move (c : Collector) (p : ℚ × ℚ) (l : Nat) : Collector :=
  { c with pos := p, label := l, path := c.path ++ [p] }

/-- Constructor-time configuration of the graph variant (`raw_env.__init__`).
The graph has nodes `0 .. n-1` (the source requires node labels to be a
contiguous integer range starting at 0) and `adj u v = some w` exactly when
the edge `u → v` exists with weight `w` (`graph.adj[u][v]["weight"]`). -/
structure Config where
  n : Nat
  adj : Nat → Nat → Option ℚ
  pointLabels : List Nat
  initAgentLabels : List Nat
  maxCollect : List Nat
  npr : Nat
  cheatCost : ℚ
  caughtProb : ℚ

/-- Number of agents (`len(init_agent_labels)`). -/
def Config.numAgents (cfg : Config) : Nat :=
  cfg.initAgentLabels.length

/-- Neighbor enumeration (`nx.neighbors`), in increasing label order. -/
def neighbors (cfg : Config) (u : Nat) : List Nat :=
  (List.range cfg.n).filter fun v => (cfg.adj u v).isSome

/-- Display width of a node (`_get_node_shape`): `SCREEN_WIDTH / nodes_per_row`. -/
def nodeWidth (cfg : Config) : ℚ :=
  1000 / (cfg.npr : ℚ)

/-- Display height of a node (`_get_node_shape`):
`SCREEN_HEIGHT / ceil(n / nodes_per_row)`. -/
def nodeHeight (cfg : Config) : ℚ :=
  1000 / (((cfg.n + cfg.npr - 1) / cfg.npr : Nat) : ℚ)

/-- Display position of a node (`_get_node_position`). -/
def nodePos (cfg : Config) (label : Nat) : ℚ × ℚ :=
  (((label % cfg.npr : Nat) : ℚ) * nodeWidth cfg,
    ((label / cfg.npr : Nat) : ℚ) * nodeHeight cfg)

/-- Mutable per-episode state of the graph variant (the fields set in
`reset()`).  `counts` is the per-label collection counter of the `points`
dict (a `Point`'s `collect_count`; the `Point` class is modelled from the
spec §3, its display position being derivable via `nodePos`). -/
structure State where
  agents : List Nat
  selCur : Nat
  agent_selection : Nat
  collectors : Nat → Collector
  counts : Nat → Nat
  iteration : Nat
  terminations : Nat → Bool
  truncations : Nat → Bool
  rewards : Nat → ℚ
  cumulative : Nat → ℚ
  cumRewards : Nat → ℚ
  terminate : Bool
  truncate : Bool
  rng : Nat

/-- Errors a `step`/`reward` call of the graph variant can raise:
`keyError` is the `KeyError` of a per-agent dict lookup on a pruned key,
`invalidAction` the `ValueError` for an action outside the action space,
`edgeNotFound` the `ValueError` raised by `reward` for a missing edge. -/
inductive Err where
  | keyError
  | invalidAction
  | edgeNotFound
deriving Repr, DecidableEq

/-- Modelled from the spec (§3 `is_collected`): a point has already been
collected exactly when its counter is positive. -/
def isCollected (counts : Nat → Nat) (label : Nat) : Bool :=
  decide (0 < counts label)

/-- Cost of cheating (`raw_env.cheating_cost`): `cheat_cost * caught_probability`,
a deterministic expectation. -/
def cheatingCost (cfg : Config) : ℚ :=
  cfg.cheatCost * cfg.caughtProb

/-- Reward for moving along an edge (`raw_env.reward`): the negated edge
weight, with the cheating cost added when the destination is an
already-collected point; `.error` is the `ValueError` raised when no edge
exists. -/
def reward (cfg : Config) (s : State) (curNode newNode : Nat) : Except Unit ℚ :=
  match cfg.adj curNode newNode with
  | none => .error ()
  | some w =>
      .ok (-(w + if newNode ∈ cfg.pointLabels ∧ isCollected s.counts newNode then
        cheatingCost cfg else 0))

/-- Modelled from the spec (§4.3 `collect`): increment the point's counter and
the collector's statistics, the already-collected test being made before the
counter is incremented. -/
def collectPoint (c : Collector) (counts : Nat → Nat) (label : Nat) :
    Collector × (Nat → Nat) :=
  let first := counts label = 0
  ({ c with
      total := c.total + 1,
      unique := c.unique + (if first then 1 else 0),
      cheated := c.cheated + (if first then 0 else 1) },
    fun l => if l = label then counts l + 1 else counts l)

/-- Modelled from the spec (§4.4) and the source's own comment at
`graph_collector.py:596`: the dead-step path of the external AEC base class
(`_was_dead_step`, not under `src/`) prunes the dead agent from the active
list and from every per-agent bookkeeping dict (embedded as the shared key
set `agents`), performing no other simulation effect; it does not update
`agent_selection` when no other tracked agent is dead. -/
def wasDeadStep (s : State) : State :=
  { s with agents := s.agents.erase s.agent_selection }

/-- Common tail of a live `step` (`graph_collector.py:634-651`): termination
update from the acting agent's post-move statistics, recomputation of the
episode flags over the tracked agents, iteration counter, reward bookkeeping
(including the external `_accumulate_rewards`, which adds each tracked
agent's last reward into its `_cumulative_rewards` entry), and turn advance. -/
def finish (cfg : Config) (s : State) (c : Collector) (counts : Nat → Nat)
    (r : ℚ) : State :=
  let agent := s.agent_selection
  let collectors := fun a => if a = agent then c else s.collectors a
  let terminations :=
    if cfg.maxCollect.getD agent 0 ≤ c.total then
      (fun a => if a = agent then true else s.terminations a)
    else s.terminations
  let terminate := s.agents.all fun a => terminations a
  let truncate := s.agents.all fun a => s.truncations a
  let rewards := fun a => if a = agent then r else s.rewards a
  let cumulative := fun a =>
    if a = agent then s.cumulative a + r else s.cumulative a
  let cumZeroed := fun a => if a = agent then 0 else s.cumRewards a
  let cumRewards := fun a =>
    if a ∈ s.agents then cumZeroed a + rewards a else cumZeroed a
  let sel := selNext s.agents s.selCur
  { s with
      collectors := collectors,
      counts := counts,
      iteration := s.iteration + 1,
      terminations := terminations,
      terminate := terminate,
      truncate := truncate,
      rewards := rewards,
      cumulative := cumulative,
      cumRewards := cumRewards,
      agent_selection := sel.1,
      selCur := sel.2 }

/-- Resynchronization guard of the dead path (`graph_collector.py:596-599`):
when `agent_selection` is no longer among the (non-empty) shrunk agent list,
force an extra `next()` call. -/
def deadAdvance (s : State) : State :=
  if s.agent_selection ∉ s.agents ∧ s.agents ≠ [] then
    let sel := selNext s.agents s.selCur
    { s with agent_selection := sel.1, selCur := sel.2 }
  else s

/-- Transition function of the graph variant (`raw_env.step`).  The action is
`none` or an integer of the `Discrete(n)` action space; the dead-agent path
comes first, then action-space validation (bypassed by `none`), then the
move/collect path for neighbor destinations and the zero-reward no-op for
everything else. -/
def step (cfg : Config) (s : State) (action : Option ℤ) : Except Err State :=
  if s.agent_selection ∈ s.agents then
    if s.terminations s.agent_selection || s.truncations s.agent_selection then
      .ok (deadAdvance (wasDeadStep s))
    else
      match action with
      | none => .ok (finish cfg s (s.collectors s.agent_selection) s.counts 0)
      | some a =>
        if 0 ≤ a ∧ a < (cfg.n : ℤ) then
          if a.toNat ∈ neighbors cfg (s.collectors s.agent_selection).label then
            match reward cfg s (s.collectors s.agent_selection).label a.toNat with
            | .error _ => .error .edgeNotFound
            | .ok r =>
              let c := (s.collectors s.agent_selection).move
                (nodePos cfg a.toNat) a.toNat
              if a.toNat ∈ cfg.pointLabels then
                let pc := collectPoint c s.counts a.toNat
                .ok (finish cfg s pc.1 pc.2 r)
              else
                .ok (finish cfg s c s.counts r)
          else
            .ok (finish cfg s (s.collectors s.agent_selection) s.counts 0)
        else .error .invalidAction
  else .error .keyError

/-- Reinitialization (`raw_env.reset`): rebuild the agent list, scheduler,
collectors and points from the configuration; a given seed reseeds the rng
(which no part of `reset` or `step` consumes). -/
def reset (cfg : Config) (s : State) (seed : Option Nat) : State :=
  let rng := match seed with | some k => k | none => s.rng
  let agents := List.range cfg.numAgents
  let sel := selNext agents 0
  { agents := agents,
    selCur := sel.2,
    agent_selection := sel.1,
    collectors := fun i =>
      let label := cfg.initAgentLabels.getD i 0
      { pos := nodePos cfg label, label := label, path := [],
        total := 0, unique := 0, cheated := 0 },
    counts := fun _ => 0,
    iteration := 0,
    terminations := fun _ => false,
    truncations := fun _ => false,
    rewards := fun _ => 0,
    cumulative := fun _ => 0,
    cumRewards := fun _ => 0,
    terminate := false,
    truncate := false,
    rng := rng }

/-- Action mask (`raw_env._get_action_mask`): a zero vector of length `n`
with entry 1 written at each neighbor of the agent's current node. -/
def actionMask (cfg : Config) (s : State) (agent : Nat) : List Nat :=
  (neighbors cfg (s.collectors agent).label).foldl
    (fun m v => m.set v 1) (List.replicate cfg.n 0)

/-- Observation of the graph variant (`raw_env.observe` without the rendered
image, which the spec excludes from the core contract): adjacency matrix,
point and collector labels, collection counters, and the action mask. -/
structure Obs where
  graphMat : List (List ℚ)
  point_labels : List Nat
  collector_labels : List Nat
  collected : List Nat
  action_mask : List Nat
deriving Repr, DecidableEq

/-- Per-agent observation (`raw_env.observe`). -/
def observe (cfg : Config) (s : State) (agent : Nat) : Obs :=
  { graphMat := (List.range cfg.n).map fun i =>
      (List.range cfg.n).map fun j => (cfg.adj i j).getD 0,
    point_labels := cfg.pointLabels,
    collector_labels :=
      (List.range cfg.numAgents).map fun i => (s.collectors i).label,
    collected := cfg.pointLabels.map fun l => s.counts l,
    action_mask := actionMask cfg s agent }

/-- Observation mapping returned by `reset` (one entry per active agent). -/
def resetObs (cfg : Config) (s : State) (seed : Option Nat) :
    List (Nat × Obs) :=
  (reset cfg s seed).agents.map fun a => (a, observe cfg (reset cfg s seed) a)

/-- States reachable through the public interface: a `reset` from any prior
state, followed by successful `step` calls. -/
inductive Reach (cfg : Config) : State → Prop where
  | reset (s : State) (seed : Option Nat) : Reach cfg (reset cfg s seed)
  | step (s : State) (a : Option ℤ) (s' : State) (h : Reach cfg s)
      (hs : step cfg s a = .ok s') : Reach cfg s'

end Graph

namespace Cont

/-- Collectible point of the continuous variant.  Modelled from the spec
(§3 "Point", the `Point` class of `collector/utils/objects.py` is not under
`src/`): a fixed position and a collection counter incremented on every
collection. -/
structure Point where
  pos : ℚ × ℚ
  count : Nat
deriving Repr, DecidableEq

/-- Modelled from the spec (§3 `is_collected`): already collected exactly when
the counter is positive. -/
def Point.isCollected (p : Point) : Bool :=
  decide (0 < p.count)

/-- Per-agent mobile entity of the continuous variant.  Modelled from the spec
(§3 "Collector"): current position, append-only path of collected point
positions (the `points` list used for trail rendering), and the collection
statistics. -/
structure Collector where
  pos : ℚ × ℚ
  path : List (ℚ × ℚ)
  total : Nat
  unique : Nat
  cheated : Nat
deriving Repr, DecidableEq

/-- Constructor-time configuration of the continuous variant
(`raw_env.__init__`): the `(x, y)` point and initial agent positions and the
cost-model parameters. -/
structure Config where
  pointPos : List (ℚ × ℚ)
  agentPos : List (ℚ × ℚ)
  maxCollect : List Nat
  cheatCost : ℚ
  caughtProb : ℚ

/-- Number of agents (`len(agent_positions)`). -/
def Config.numAgents (cfg : Config) : Nat :=
  cfg.agentPos.length

/-- Mutable per-episode state of the continuous variant (the fields set in
`reset()`).  Rewards are real-valued because the cost model uses the
Euclidean norm. -/
structure State where
  agents : List Nat
  selCur : Nat
  agent_selection : Nat
  collectors : Nat → Collector
  points : List Point
  terminations : Nat → Bool
  truncations : Nat → Bool
  rewards : Nat → ℝ
  cumRewards : Nat → ℝ
  terminate : Bool
  truncate : Bool
  rng : Nat

/-- Errors a `step` call of the continuous variant can raise: `keyError` is
the `KeyError` of a per-agent dict lookup on a pruned key, `invalidAction`
the `ValueError` for an action outside the `Discrete(n_points)` space. -/
inductive Err where
  | keyError
  | invalidAction
deriving Repr, DecidableEq

/-- Euclidean distance (`np.linalg.norm(collector.position - point.position)`). -/
noncomputable def dist (a b : ℚ × ℚ) : ℝ :=
  Real.sqrt (((a.1 - b.1) ^ 2 + (a.2 - b.2) ^ 2 : ℚ) : ℝ)

/-- Cost of cheating (`raw_env.cheating_cost`): `cheat_cost * caught_probability`. -/
def cheatingCost (cfg : Config) : ℚ :=
  cfg.cheatCost * cfg.caughtProb

/-- Reward for collecting a point (`raw_env.reward`): negated Euclidean
distance from the collector to the point, with the cheating cost added when
the point has already been collected. -/
noncomputable def reward (cfg : Config) (c : Collector) (p : Point) : ℝ :=
  -(dist c.pos p.pos + if p.isCollected then ((cheatingCost cfg : ℚ) : ℝ) else 0)

/-- Modelled from the spec (§4.3 `collect`): increment the point's counter and
the collector's statistics, appending the point to the collector's trail; the
already-collected test is made before the counter is incremented. -/
def collectPoint (c : Collector) (p : Point) : Collector × Point :=
  let first := p.count = 0
  ({ c with
      path := c.path ++ [p.pos],
      total := c.total + 1,
      unique := c.unique + (if first then 1 else 0),
      cheated := c.cheated + (if first then 0 else 1) },
    { p with count := p.count + 1 })

/-- Modelled from the spec (§4.4) and mirroring `Graph.wasDeadStep`: the dead
path of the continuous variant (`collector.py:342-344`) calls the external
`_was_dead_step` and returns immediately, with no resynchronization guard, so
`agent_selection` is left untouched while the dead agent is pruned from the
active list and the per-agent dicts. -/
def wasDeadStep (s : State) : State :=
  { s with agents := s.agents.erase s.agent_selection }

/-- Default sentinel point for the (unreachable) out-of-range list access. -/
def dummyPoint : Point :=
  { pos := (0, 0), count := 0 }

/-- Live-step body of the continuous variant (`collector.py:349-377`): reward
from the pre-move, pre-collect state, teleport move, collection, reward
bookkeeping (including the external `_accumulate_rewards`), turn advance,
termination update from the post-collect statistics, and recomputation of the
episode flags over the tracked agents. -/
noncomputable def finish (cfg : Config) (s : State) (i : Nat) : State :=
  let agent := s.agent_selection
  let p := s.points.getD i dummyPoint
  let c := s.collectors agent
  let r := reward cfg c p
  let moved := { c with pos := p.pos }
  let cp := collectPoint moved p
  let points := s.points.set i cp.2
  let rewards := fun a => if a = agent then r else s.rewards a
  let sel := selNext s.agents s.selCur
  let cumZeroed := fun a => if a = agent then 0 else s.cumRewards a
  let cumRewards := fun a =>
    if a ∈ s.agents then cumZeroed a + rewards a else cumZeroed a
  let terminations :=
    if cfg.maxCollect.getD agent 0 ≤ cp.1.total then
      (fun a => if a = agent then true else s.terminations a)
    else s.terminations
  let terminate := s.agents.all fun a => terminations a
  let truncate := s.agents.all fun a => s.truncations a
  { s with
      collectors := fun a => if a = agent then cp.1 else s.collectors a,
      points := points,
      rewards := rewards,
      agent_selection := sel.1,
      selCur := sel.2,
      cumRewards := cumRewards,
      terminations := terminations,
      terminate := terminate,
      truncate := truncate }

/-- Transition function of the continuous variant (`raw_env.step`): dead-agent
path first, then the action-space membership check (any invalid action is a
fatal `ValueError`), then the live-step body. -/
noncomputable def step (cfg : Config) (s : State) (action : ℤ) :
    Except Err State :=
  if s.agent_selection ∈ s.agents then
    if s.terminations s.agent_selection || s.truncations s.agent_selection then
      .ok (wasDeadStep s)
    else
      if 0 ≤ action ∧ action < (cfg.pointPos.length : ℤ) then
        .ok (finish cfg s action.toNat)
      else .error .invalidAction
  else .error .keyError

/-- Reinitialization (`raw_env.reset`): rebuild the agent list, scheduler,
collectors and points from the configuration; a given seed reseeds the rng
(which no part of `reset` or `step` consumes). -/
def reset (cfg : Config) (s : State) (seed : Option Nat) : State :=
  let rng := match seed with | some k => k | none => s.rng
  let agents := List.range cfg.numAgents
  let sel := selNext agents 0
  { agents := agents,
    selCur := sel.2,
    agent_selection := sel.1,
    collectors := fun i =>
      { pos := cfg.agentPos.getD i (0, 0), path := [],
        total := 0, unique := 0, cheated := 0 },
    points := cfg.pointPos.map fun p => { pos := p, count := 0 },
    terminations := fun _ => false,
    truncations := fun _ => false,
    rewards := fun _ => 0,
    cumRewards := fun _ => 0,
    terminate := false,
    truncate := false,
    rng := rng }

/-- Observation of the continuous variant (`raw_env._state` without the
rendered image, which the spec excludes from the core contract): point
positions, collection counters, and all collector positions. -/
structure Obs where
  point_positions : List (ℚ × ℚ)
  collected : List Nat
  collector_positions : List (ℚ × ℚ)
deriving Repr, DecidableEq

/-- Global state snapshot (`raw_env._state`/`raw_env.observe`; identical for
all agents in this variant). -/
def stateObs (cfg : Config) (s : State) : Obs :=
  { point_positions := s.points.map fun p => p.pos,
    collected := s.points.map fun p => p.count,
    collector_positions :=
      (List.range cfg.numAgents).map fun i => (s.collectors i).pos }

/-- Observation mapping returned by `reset` (one shared snapshot per active
agent). -/
def resetObs (cfg : Config) (s : State) (seed : Option Nat) :
    List (Nat × Obs) :=
  (reset cfg s seed).agents.map fun a => (a, stateObs cfg (reset cfg s seed))

/-- States reachable through the public interface: a `reset` from any prior
state, followed by successful `step` calls. -/
inductive Reach (cfg : Config) : State → Prop where
  | reset (s : State) (seed : Option Nat) : Reach cfg (reset cfg s seed)
  | step (s : State) (a : ℤ) (s' : State) (h : Reach cfg s)
      (hs : step cfg s a = .ok s') : Reach cfg s'

end Cont

/-! List helper lemmas used by the invariant proofs. -/

theorem all_erase_of_eq_true {l : List Nat} {x : Nat} {p : Nat → Bool}
    (hp : p x = true) : (l.erase x).all p = l.all p := by
  induction l with
  | nil => rfl
  | cons b t ih =>
    by_cases hbx : b = x
    · subst hbx
      rw [List.erase_cons_head, List.all_cons, hp, Bool.true_and]
    · rw [List.erase_cons_tail (by simpa using hbx), List.all_cons,
        List.all_cons, ih]

theorem eq_singleton_of_erase_eq_nil {l : List Nat} {x : Nat} (hx : x ∈ l)
    (h : l.erase x = []) : l = [x] := by
  cases l with
  | nil => exact absurd hx (List.not_mem_nil x)
  | cons b t =>
    by_cases hbx : b = x
    · subst hbx
      rw [List.erase_cons_head] at h
      rw [h]
    · rw [List.erase_cons_tail (by simpa using hbx)] at h
      exact absurd h (List.cons_ne_nil b _)

theorem all_eq_false_of_mem {l : List Nat} {x : Nat} {p : Nat → Bool}
    (hx : x ∈ l) (hp : p x = false) : l.all p = false := by
  cases hall : l.all p with
  | false => rfl
  | true =>
    have := List.all_eq_true.mp hall x hx
    rw [hp] at this
    exact absurd this (by simp)

theorem foldl_set_getD (l : List Nat) (m : List Nat) (i : Nat)
    (hi : i < m.length) :
    (l.foldl (fun m v => m.set v 1) m).getD i 0 =
      if i ∈ l then 1 else m.getD i 0 := by
  induction l generalizing m with
  | nil => simp
  | cons v t ih =>
    rw [List.foldl_cons, ih (m.set v 1) (by rw [List.length_set]; exact hi)]
    by_cases hit : i ∈ t
    · simp [hit]
    · by_cases hiv : i = v
      · subst hiv
        simp only [hit, if_false, List.mem_cons, true_or, if_true]
        rw [List.getD_eq_getElem?_getD, List.getElem?_set, if_pos rfl,
          if_pos hi]
        rfl
      · simp only [hit, if_false, List.mem_cons, hiv, false_or]
        rw [List.getD_eq_getElem?_getD, List.getElem?_set,
          if_neg (fun hvi => hiv hvi.symm), ← List.getD_eq_getElem?_getD]

theorem foldl_set_length (l : List Nat) (m : List Nat) :
    (l.foldl (fun m v => m.set v 1) m).length = m.length := by
  induction l generalizing m with
  | nil => rfl
  | cons v t ih => rw [List.foldl_cons, ih, List.length_set]

namespace Graph

/-- Convenient total form of `step` for stating facts about its result. -/
def stepD (cfg : Config) (s : State) (a : Option ℤ) : State :=
  okD (step cfg s a) s

/-- Boolean test for the `edgeNotFound` outcome of a `step` call. -/
def isEdgeErr (e : Except Err State) : Bool :=
  match e with
  | .error .edgeNotFound => true
  | _ => false

/-- Boolean test for the error outcome of a `reward` call. -/
def rewardFails (e : Except Unit ℚ) : Bool :=
  match e with
  | .error _ => true
  | .ok _ => false

theorem finish_agents (cfg : Config) (s : State) (c : Collector)
    (k : Nat → Nat) (r : ℚ) : (finish cfg s c k r).agents = s.agents := rfl

theorem finish_truncations (cfg : Config) (s : State) (c : Collector)
    (k : Nat → Nat) (r : ℚ) :
    (finish cfg s c k r).truncations = s.truncations := rfl

theorem finish_truncate (cfg : Config) (s : State) (c : Collector)
    (k : Nat → Nat) (r : ℚ) :
    (finish cfg s c k r).truncate = s.agents.all fun a => s.truncations a := rfl

theorem finish_terminate (cfg : Config) (s : State) (c : Collector)
    (k : Nat → Nat) (r : ℚ) :
    (finish cfg s c k r).terminate =
      s.agents.all fun a => (finish cfg s c k r).terminations a := rfl

theorem finish_selection (cfg : Config) (s : State) (c : Collector)
    (k : Nat → Nat) (r : ℚ) :
    (finish cfg s c k r).agent_selection = (selNext s.agents s.selCur).1 := rfl

theorem finish_terminations_eq (cfg : Config) (s : State) (c : Collector)
    (k : Nat → Nat) (r : ℚ) :
    (finish cfg s c k r).terminations =
      if cfg.maxCollect.getD s.agent_selection 0 ≤ c.total then
        (fun a => if a = s.agent_selection then true else s.terminations a)
      else s.terminations := rfl

theorem finish_terminations_self (cfg : Config) (s : State) (c : Collector)
    (k : Nat → Nat) (r : ℚ) :
    (finish cfg s c k r).terminations s.agent_selection =
      if cfg.maxCollect.getD s.agent_selection 0 ≤ c.total then true
      else s.terminations s.agent_selection := by
  rw [finish_terminations_eq]
  split_ifs with h
  · simp
  · rfl

theorem finish_terminations_other (cfg : Config) (s : State) (c : Collector)
    (k : Nat → Nat) (r : ℚ) (b : Nat) (hb : b ≠ s.agent_selection) :
    (finish cfg s c k r).terminations b = s.terminations b := by
  rw [finish_terminations_eq]
  split_ifs with h
  · simp [hb]
  · rfl

theorem finish_rewards_eq (cfg : Config) (s : State) (c : Collector)
    (k : Nat → Nat) (r : ℚ) :
    (finish cfg s c k r).rewards =
      fun a => if a = s.agent_selection then r else s.rewards a := rfl

theorem finish_rewards_self (cfg : Config) (s : State) (c : Collector)
    (k : Nat → Nat) (r : ℚ) :
    (finish cfg s c k r).rewards s.agent_selection = r := by
  rw [finish_rewards_eq]
  simp

theorem finish_collectors_eq (cfg : Config) (s : State) (c : Collector)
    (k : Nat → Nat) (r : ℚ) :
    (finish cfg s c k r).collectors =
      fun a => if a = s.agent_selection then c else s.collectors a := rfl

theorem finish_collectors_self (cfg : Config) (s : State) (c : Collector)
    (k : Nat → Nat) (r : ℚ) :
    (finish cfg s c k r).collectors s.agent_selection = c := by
  rw [finish_collectors_eq]
  simp

theorem finish_counts (cfg : Config) (s : State) (c : Collector)
    (k : Nat → Nat) (r : ℚ) : (finish cfg s c k r).counts = k := rfl

theorem finish_iteration (cfg : Config) (s : State) (c : Collector)
    (k : Nat → Nat) (r : ℚ) :
    (finish cfg s c k r).iteration = s.iteration + 1 := rfl

theorem wasDeadStep_agents (s : State) :
    (wasDeadStep s).agents = s.agents.erase s.agent_selection := rfl

theorem wasDeadStep_terminations (s : State) :
    (wasDeadStep s).terminations = s.terminations := rfl

theorem wasDeadStep_truncations (s : State) :
    (wasDeadStep s).truncations = s.truncations := rfl

theorem wasDeadStep_terminate (s : State) :
    (wasDeadStep s).terminate = s.terminate := rfl

theorem wasDeadStep_truncate (s : State) :
    (wasDeadStep s).truncate = s.truncate := rfl

theorem wasDeadStep_selection (s : State) :
    (wasDeadStep s).agent_selection = s.agent_selection := rfl

theorem wasDeadStep_collectors (s : State) :
    (wasDeadStep s).collectors = s.collectors := rfl

theorem wasDeadStep_counts (s : State) :
    (wasDeadStep s).counts = s.counts := rfl

theorem wasDeadStep_rewards (s : State) :
    (wasDeadStep s).rewards = s.rewards := rfl

theorem wasDeadStep_iteration (s : State) :
    (wasDeadStep s).iteration = s.iteration := rfl

theorem deadAdvance_agents (s : State) : (deadAdvance s).agents = s.agents := by
  unfold deadAdvance
  split <;> rfl

theorem deadAdvance_collectors (s : State) :
    (deadAdvance s).collectors = s.collectors := by
  unfold deadAdvance
  split <;> rfl

theorem deadAdvance_counts (s : State) :
    (deadAdvance s).counts = s.counts := by
  unfold deadAdvance
  split <;> rfl

theorem deadAdvance_rewards (s : State) :
    (deadAdvance s).rewards = s.rewards := by
  unfold deadAdvance
  split <;> rfl

theorem deadAdvance_terminations (s : State) :
    (deadAdvance s).terminations = s.terminations := by
  unfold deadAdvance
  split <;> rfl

theorem deadAdvance_truncations (s : State) :
    (deadAdvance s).truncations = s.truncations := by
  unfold deadAdvance
  split <;> rfl

theorem deadAdvance_terminate (s : State) :
    (deadAdvance s).terminate = s.terminate := by
  unfold deadAdvance
  split <;> rfl

theorem deadAdvance_truncate (s : State) :
    (deadAdvance s).truncate = s.truncate := by
  unfold deadAdvance
  split <;> rfl

theorem deadAdvance_iteration (s : State) :
    (deadAdvance s).iteration = s.iteration := by
  unfold deadAdvance
  split <;> rfl

/-- Case analysis of a successful `step` call: either the dead-agent path ran,
or the acting agent was live and the result is a `finish` state. -/
theorem step_ok_cases {cfg : Config} {s : State} {a : Option ℤ} {s' : State}
    (h : step cfg s a = .ok s') :
    (s.agent_selection ∈ s.agents ∧
      (s.terminations s.agent_selection || s.truncations s.agent_selection)
        = true ∧
      s' = deadAdvance (wasDeadStep s)) ∨
    (s.agent_selection ∈ s.agents ∧
      (s.terminations s.agent_selection || s.truncations s.agent_selection)
        = false ∧
      ∃ c k r, s' = finish cfg s c k r) := by
  unfold step at h
  split at h
  case isTrue hmem =>
    split at h
    case isTrue hdead =>
      injection h with h
      exact Or.inl ⟨hmem, by simpa using hdead, h.symm⟩
    case isFalse hdead =>
      refine Or.inr ⟨hmem, by simpa using hdead, ?_⟩
      split at h
      · injection h with h
        exact ⟨_, _, _, h.symm⟩
      · split at h
        · split at h
          · split at h
            · exact absurd h (by simp)
            · split at h
              · injection h with h
                exact ⟨_, _, _, h.symm⟩
              · injection h with h
                exact ⟨_, _, _, h.symm⟩
          · injection h with h
            exact ⟨_, _, _, h.symm⟩
        · exact absurd h (by simp)
  case isFalse hmem => exact absurd h (by simp)

end Graph

namespace Cont

/-- Convenient total form of `step` for stating facts about its result. -/
noncomputable def stepD (cfg : Config) (s : State) (a : ℤ) : State :=
  okD (step cfg s a) s

theorem finish_agents_cont (cfg : Config) (s : State) (i : Nat) :
    (finish cfg s i).agents = s.agents := rfl

theorem finish_truncations_cont (cfg : Config) (s : State) (i : Nat) :
    (finish cfg s i).truncations = s.truncations := rfl

theorem finish_truncate_cont (cfg : Config) (s : State) (i : Nat) :
    (finish cfg s i).truncate = s.agents.all fun a => s.truncations a := rfl

theorem finish_terminate_cont (cfg : Config) (s : State) (i : Nat) :
    (finish cfg s i).terminate =
      s.agents.all fun a => (finish cfg s i).terminations a := rfl

theorem finish_selection_cont (cfg : Config) (s : State) (i : Nat) :
    (finish cfg s i).agent_selection = (selNext s.agents s.selCur).1 := rfl

theorem finish_collectors_eq_cont (cfg : Config) (s : State) (i : Nat) :
    (finish cfg s i).collectors =
      fun a => if a = s.agent_selection then
        (collectPoint
          { s.collectors s.agent_selection with
              pos := (s.points.getD i dummyPoint).pos }
          (s.points.getD i dummyPoint)).1
      else s.collectors a := rfl

theorem finish_points (cfg : Config) (s : State) (i : Nat) :
    (finish cfg s i).points =
      s.points.set i
        (collectPoint
          { s.collectors s.agent_selection with
              pos := (s.points.getD i dummyPoint).pos }
          (s.points.getD i dummyPoint)).2 := rfl

theorem finish_rewards_eq_cont (cfg : Config) (s : State) (i : Nat) :
    (finish cfg s i).rewards =
      fun a => if a = s.agent_selection then
        reward cfg (s.collectors s.agent_selection) (s.points.getD i dummyPoint)
      else s.rewards a := rfl

theorem finish_terminations_eq_cont (cfg : Config) (s : State) (i : Nat) :
    (finish cfg s i).terminations =
      if cfg.maxCollect.getD s.agent_selection 0 ≤
          (collectPoint
            { s.collectors s.agent_selection with
                pos := (s.points.getD i dummyPoint).pos }
            (s.points.getD i dummyPoint)).1.total then
        (fun a => if a = s.agent_selection then true else s.terminations a)
      else s.terminations := rfl

theorem finish_terminations_other_cont (cfg : Config) (s : State) (i : Nat)
    (b : Nat) (hb : b ≠ s.agent_selection) :
    (finish cfg s i).terminations b = s.terminations b := by
  rw [finish_terminations_eq_cont]
  split_ifs with h
  · simp [hb]
  · rfl

theorem wasDeadStep_agents_cont (s : State) :
    (wasDeadStep s).agents = s.agents.erase s.agent_selection := rfl

/-- Case analysis of a successful `step` call: either the dead-agent path ran,
or the acting agent was live, the action was inside the action space and the
result is a `finish` state. -/
theorem step_ok_cases_cont {cfg : Config} {s : State} {a : ℤ} {s' : State}
    (h : step cfg s a = .ok s') :
    (s.agent_selection ∈ s.agents ∧
      (s.terminations s.agent_selection || s.truncations s.agent_selection)
        = true ∧
      s' = wasDeadStep s) ∨
    (s.agent_selection ∈ s.agents ∧
      (s.terminations s.agent_selection || s.truncations s.agent_selection)
        = false ∧
      s' = finish cfg s a.toNat) := by
  unfold step at h
  split at h
  case isTrue hmem =>
    split at h
    case isTrue hdead =>
      injection h with h
      exact Or.inl ⟨hmem, by simpa using hdead, h.symm⟩
    case isFalse hdead =>
      split at h
      · injection h with h
        exact Or.inr ⟨hmem, by simpa using hdead, h.symm⟩
      · exact absurd h (by simp)
  case isFalse hmem => exact absurd h (by simp)

end Cont

namespace Graph

/-- Episode-flag invariant maintained at every reachable state of the graph
variant: no tracked agent is ever truncated (nothing in this core sets the
flag), the episode truncation flag stays false, and the episode termination
flag agrees with the conjunction over the tracked agents while any remain
(and is true once all have been pruned). -/
def Inv (s : State) : Prop :=
  (∀ a ∈ s.agents, s.truncations a = false) ∧
  s.truncate = false ∧
  (s.agents ≠ [] → s.terminate = (s.agents.all fun a => s.terminations a)) ∧
  (s.agents = [] → s.terminate = true)

theorem reach_inv {cfg : Config} (hk : 0 < cfg.numAgents) {s : State}
    (h : Reach cfg s) : Inv s := by
  induction h with
  | reset s seed =>
    refine ⟨fun a _ => rfl, rfl, fun _ => ?_, fun hnil => ?_⟩
    · exact (all_eq_false_of_mem (List.mem_range.mpr hk) rfl).symm
    · exact absurd (hnil ▸ List.mem_range.mpr hk) (List.not_mem_nil 0)
  | step s a s' hr hstep ih =>
    rcases step_ok_cases hstep with
      ⟨hmem, hdead, rfl⟩ | ⟨hmem, hlive, c, k, r, rfl⟩
    · have hagents :
          (deadAdvance (wasDeadStep s)).agents =
            s.agents.erase s.agent_selection := by
        rw [deadAdvance_agents, wasDeadStep_agents]
      have htrsel : s.truncations s.agent_selection = false := ih.1 _ hmem
      have htermsel : s.terminations s.agent_selection = true := by
        rcases Bool.or_eq_true_iff.mp hdead with h1 | h1
        · exact h1
        · rw [htrsel] at h1
          exact absurd h1 (by simp)
      have hne : s.agents ≠ [] := List.ne_nil_of_mem hmem
      refine ⟨?_, ?_, ?_, ?_⟩
      · intro b hb
        rw [deadAdvance_truncations]
        exact ih.1 b (List.mem_of_mem_erase (hagents ▸ hb))
      · rw [deadAdvance_truncate]
        exact ih.2.1
      · intro hne'
        rw [deadAdvance_terminate, deadAdvance_terminations, hagents,
          wasDeadStep_terminate, wasDeadStep_terminations,
          all_erase_of_eq_true htermsel]
        exact ih.2.2.1 hne
      · intro hnil
        rw [hagents] at hnil
        have hsingle := eq_singleton_of_erase_eq_nil hmem hnil
        rw [deadAdvance_terminate, wasDeadStep_terminate, ih.2.2.1 hne,
          hsingle, List.all_cons, htermsel]
        rfl
    · have htrsel : s.truncations s.agent_selection = false := by
        rcases Bool.or_eq_false_iff.mp hlive with ⟨_, h2⟩
        exact h2
      refine ⟨?_, ?_, ?_, ?_⟩
      · intro b hb
        rw [finish_truncations]
        exact ih.1 b (by rwa [finish_agents] at hb)
      · rw [finish_truncate]
        exact all_eq_false_of_mem hmem htrsel
      · intro _
        rw [finish_terminate, finish_agents]
      · intro hnil
        rw [finish_agents] at hnil
        exact absurd (hnil ▸ hmem) (List.not_mem_nil _)

/-- Scheduler-membership invariant of the graph variant: whenever agents
remain, the selected agent is one of them (the dead path's explicit
resynchronization guard restores this after a prune). -/
theorem reach_sel_mem {cfg : Config} {s : State} (h : Reach cfg s) :
    s.agents ≠ [] → s.agent_selection ∈ s.agents := by
  induction h with
  | reset s seed =>
    intro hne
    exact selNext_fst_mem _ _ hne
  | step s a s' hr hstep ih =>
    rcases step_ok_cases hstep with
      ⟨hmem, hdead, rfl⟩ | ⟨hmem, hlive, c, k, r, rfl⟩
    · intro hne
      unfold deadAdvance
      split
      case isTrue hcond =>
        exact selNext_fst_mem _ _ hcond.2
      case isFalse hcond =>
        rw [deadAdvance_agents] at hne
        rcases not_and_or.mp hcond with h1 | h1
        · exact not_not.mp h1
        · exact absurd (not_not.mp h1) hne
    · intro _
      rw [finish_agents]
      rw [finish_selection]
      exact selNext_fst_mem _ _ (List.ne_nil_of_mem hmem)

end Graph

namespace Cont

/-- Episode-flag invariant maintained at every reachable state of the
continuous variant (mirror of `Graph.Inv`). -/
def Inv (s : State) : Prop :=
  (∀ a ∈ s.agents, s.truncations a = false) ∧
  s.truncate = false ∧
  (s.agents ≠ [] → s.terminate = (s.agents.all fun a => s.terminations a)) ∧
  (s.agents = [] → s.terminate = true)

theorem reach_inv_cont {cfg : Config} (hk : 0 < cfg.numAgents) {s : State}
    (h : Reach cfg s) : Inv s := by
  induction h with
  | reset s seed =>
    refine ⟨fun a _ => rfl, rfl, fun _ => ?_, fun hnil => ?_⟩
    · exact (all_eq_false_of_mem (List.mem_range.mpr hk) rfl).symm
    · exact absurd (hnil ▸ List.mem_range.mpr hk) (List.not_mem_nil 0)
  | step s a s' hr hstep ih =>
    rcases step_ok_cases_cont hstep with
      ⟨hmem, hdead, rfl⟩ | ⟨hmem, hlive, rfl⟩
    · have htrsel : s.truncations s.agent_selection = false := ih.1 _ hmem
      have htermsel : s.terminations s.agent_selection = true := by
        rcases Bool.or_eq_true_iff.mp hdead with h1 | h1
        · exact h1
        · rw [htrsel] at h1
          exact absurd h1 (by simp)
      have hne : s.agents ≠ [] := List.ne_nil_of_mem hmem
      refine ⟨?_, ?_, ?_, ?_⟩
      · intro b hb
        exact ih.1 b (List.mem_of_mem_erase (wasDeadStep_agents_cont s ▸ hb))
      · exact ih.2.1
      · intro hne'
        rw [show (wasDeadStep s).terminate = s.terminate from rfl,
          show (wasDeadStep s).terminations = s.terminations from rfl,
          wasDeadStep_agents_cont, all_erase_of_eq_true htermsel]
        exact ih.2.2.1 hne
      · intro hnil
        rw [wasDeadStep_agents_cont] at hnil
        have hsingle := eq_singleton_of_erase_eq_nil hmem hnil
        rw [show (wasDeadStep s).terminate = s.terminate from rfl,
          ih.2.2.1 hne, hsingle, List.all_cons, htermsel]
        rfl
    · have htrsel : s.truncations s.agent_selection = false := by
        rcases Bool.or_eq_false_iff.mp hlive with ⟨_, h2⟩
        exact h2
      refine ⟨?_, ?_, ?_, ?_⟩
      · intro b hb
        rw [finish_truncations_cont]
        exact ih.1 b (by rwa [finish_agents_cont] at hb)
      · rw [finish_truncate_cont]
        exact all_eq_false_of_mem hmem htrsel
      · intro _
        rw [finish_terminate_cont, finish_agents_cont]
      · intro hnil
        rw [finish_agents_cont] at hnil
        exact absurd (hnil ▸ hmem) (List.not_mem_nil _)

end Cont

namespace Graph

theorem step_dead {cfg : Config} {s : State} (a : Option ℤ)
    (hmem : s.agent_selection ∈ s.agents)
    (hdead : s.terminations s.agent_selection = true ∨
      s.truncations s.agent_selection = true) :
    step cfg s a = .ok (deadAdvance (wasDeadStep s)) := by
  unfold step
  rw [if_pos hmem, if_pos (by rcases hdead with h | h <;> simp [h])]

theorem step_live_none {cfg : Config} {s : State}
    (hmem : s.agent_selection ∈ s.agents)
    (hterm : s.terminations s.agent_selection = false)
    (htrunc : s.truncations s.agent_selection = false) :
    step cfg s none =
      .ok (finish cfg s (s.collectors s.agent_selection) s.counts 0) := by
  unfold step
  rw [if_pos hmem, if_neg (by simp [hterm, htrunc])]

theorem step_live_nonnbr {cfg : Config} {s : State} {a : ℤ}
    (hmem : s.agent_selection ∈ s.agents)
    (hterm : s.terminations s.agent_selection = false)
    (htrunc : s.truncations s.agent_selection = false)
    (hspace : 0 ≤ a ∧ a < (cfg.n : ℤ))
    (hnbr : a.toNat ∉ neighbors cfg (s.collectors s.agent_selection).label) :
    step cfg s (some a) =
      .ok (finish cfg s (s.collectors s.agent_selection) s.counts 0) := by
  unfold step
  rw [if_pos hmem, if_neg (by simp [hterm, htrunc])]
  simp only [if_pos hspace, if_neg hnbr]

theorem step_live_point {cfg : Config} {s : State} {a : ℤ} {w : ℚ}
    (hmem : s.agent_selection ∈ s.agents)
    (hterm : s.terminations s.agent_selection = false)
    (htrunc : s.truncations s.agent_selection = false)
    (hspace : 0 ≤ a ∧ a < (cfg.n : ℤ))
    (hnbr : a.toNat ∈ neighbors cfg (s.collectors s.agent_selection).label)
    (hw : cfg.adj (s.collectors s.agent_selection).label a.toNat = some w)
    (hpt : a.toNat ∈ cfg.pointLabels) :
    step cfg s (some a) =
      .ok (finish cfg s
        (collectPoint ((s.collectors s.agent_selection).move
          (nodePos cfg a.toNat) a.toNat) s.counts a.toNat).1
        (collectPoint ((s.collectors s.agent_selection).move
          (nodePos cfg a.toNat) a.toNat) s.counts a.toNat).2
        (-(w + if a.toNat ∈ cfg.pointLabels ∧ isCollected s.counts a.toNat
            then cheatingCost cfg else 0))) := by
  have hrw : reward cfg s (s.collectors s.agent_selection).label a.toNat =
      .ok (-(w + if a.toNat ∈ cfg.pointLabels ∧ isCollected s.counts a.toNat
        then cheatingCost cfg else 0)) := by
    unfold reward
    rw [hw]
  unfold step
  rw [if_pos hmem, if_neg (by simp [hterm, htrunc])]
  simp only [if_pos hspace, if_pos hnbr, hrw, if_pos hpt]

theorem step_live_nonpoint {cfg : Config} {s : State} {a : ℤ} {w : ℚ}
    (hmem : s.agent_selection ∈ s.agents)
    (hterm : s.terminations s.agent_selection = false)
    (htrunc : s.truncations s.agent_selection = false)
    (hspace : 0 ≤ a ∧ a < (cfg.n : ℤ))
    (hnbr : a.toNat ∈ neighbors cfg (s.collectors s.agent_selection).label)
    (hw : cfg.adj (s.collectors s.agent_selection).label a.toNat = some w)
    (hpt : a.toNat ∉ cfg.pointLabels) :
    step cfg s (some a) =
      .ok (finish cfg s
        ((s.collectors s.agent_selection).move (nodePos cfg a.toNat) a.toNat)
        s.counts
        (-(w + if a.toNat ∈ cfg.pointLabels ∧ isCollected s.counts a.toNat
            then cheatingCost cfg else 0))) := by
  have hrw : reward cfg s (s.collectors s.agent_selection).label a.toNat =
      .ok (-(w + if a.toNat ∈ cfg.pointLabels ∧ isCollected s.counts a.toNat
        then cheatingCost cfg else 0)) := by
    unfold reward
    rw [hw]
  unfold step
  rw [if_pos hmem, if_neg (by simp [hterm, htrunc])]
  simp only [if_pos hspace, if_pos hnbr, hrw, if_neg hpt]

end Graph

namespace Cont

theorem step_dead_cont {cfg : Config} {s : State} (a : ℤ)
    (hmem : s.agent_selection ∈ s.agents)
    (hdead : s.terminations s.agent_selection = true ∨
      s.truncations s.agent_selection = true) :
    step cfg s a = .ok (wasDeadStep s) := by
  unfold step
  rw [if_pos hmem, if_pos (by rcases hdead with h | h <;> simp [h])]

theorem step_live {cfg : Config} {s : State} {a : ℤ}
    (hmem : s.agent_selection ∈ s.agents)
    (hterm : s.terminations s.agent_selection = false)
    (htrunc : s.truncations s.agent_selection = false)
    (hspace : 0 ≤ a ∧ a < (cfg.pointPos.length : ℤ)) :
    step cfg s a = .ok (finish cfg s a.toNat) := by
  unfold step
  rw [if_pos hmem, if_neg (by simp [hterm, htrunc]), if_pos hspace]

theorem step_invalid_cont {cfg : Config} {s : State} {a : ℤ}
    (hmem : s.agent_selection ∈ s.agents)
    (hterm : s.terminations s.agent_selection = false)
    (htrunc : s.truncations s.agent_selection = false)
    (hspace : ¬(0 ≤ a ∧ a < (cfg.pointPos.length : ℤ))) :
    step cfg s a = .error .invalidAction := by
  unfold step
  rw [if_pos hmem, if_neg (by simp [hterm, htrunc]), if_neg hspace]

end Cont

/-! Concrete example configurations and runs, used by the witnesses and
counterexamples below. -/

namespace Graph

/-- Two-node graph with a single undirected unit-weight edge `0 - 1`. -/
def exAdj : Nat → Nat → Option ℚ :=
  fun u v => if (u = 0 ∧ v = 1) ∨ (u = 1 ∧ v = 0) then some 1 else none

/-- Example configuration A: two agents starting at nodes 0 and 1, no points,
budgets 5 and 0. -/
def exCfgA : Config :=
  { n := 2, adj := exAdj, pointLabels := [], initAgentLabels := [0, 1],
    maxCollect := [5, 0], npr := 2, cheatCost := 500, caughtProb := 1 / 2 }

/-- Example configuration B: one agent starting at node 0, a point at node 1,
budget 1. -/
def exCfgB : Config :=
  { n := 2, adj := exAdj, pointLabels := [1], initAgentLabels := [0],
    maxCollect := [1], npr := 2, cheatCost := 500, caughtProb := 1 / 2 }

/-- Arbitrary pre-`reset` state used to seed the example runs. -/
def exDummy : State :=
  { agents := [], selCur := 0, agent_selection := 0,
    collectors := fun _ =>
      { pos := (0, 0), label := 0, path := [], total := 0, unique := 0,
        cheated := 0 },
    counts := fun _ => 0, iteration := 0,
    terminations := fun _ => false, truncations := fun _ => false,
    rewards := fun _ => 0, cumulative := fun _ => 0, cumRewards := fun _ => 0,
    terminate := false, truncate := false, rng := 0 }

/-- Run of configuration A: initial state and the state after agent 0 moves
to node 1. -/
def exA0 : State := reset exCfgA exDummy (some 0)

/-- State of configuration A after agent 0's first move. -/
def exA1 : State := stepD exCfgA exA0 (some 1)

/-- Run of configuration B: initial state, the state after agent 0 collects
the point (terminating it), and the state after its dead step prunes it. -/
def exB0 : State := reset exCfgB exDummy (some 0)

/-- State of configuration B after agent 0 collects the point at node 1. -/
def exB1 : State := stepD exCfgB exB0 (some 1)

/-- State of configuration B after the dead step that prunes agent 0. -/
def exB2 : State := stepD exCfgB exB1 none

end Graph

namespace Cont

/-- Example configuration: two points and two agents on the x-axis, budgets
1 and 5. -/
def exCfg : Config :=
  { pointPos := [(0, 0), (3, 0)], agentPos := [(0, 0), (1, 0)],
    maxCollect := [1, 5], cheatCost := 500, caughtProb := 1 / 2 }

/-- Arbitrary pre-`reset` state used to seed the example runs. -/
noncomputable def exDummy : State :=
  { agents := [], selCur := 0, agent_selection := 0,
    collectors := fun _ =>
      { pos := (0, 0), path := [], total := 0, unique := 0, cheated := 0 },
    points := [],
    terminations := fun _ => false, truncations := fun _ => false,
    rewards := fun _ => 0, cumRewards := fun _ => 0,
    terminate := false, truncate := false, rng := 0 }

/-- Initial state of the example run. -/
noncomputable def ex0 : State := reset exCfg exDummy (some 0)

/-- State after agent 0 collects point 0, reaching its budget of 1. -/
noncomputable def ex1 : State := stepD exCfg ex0 0

/-- State after agent 1 collects point 1. -/
noncomputable def ex2 : State := stepD exCfg ex1 1

/-- State after the dead step on agent 0's turn prunes it from the agent
list; the selection cursor is left stale. -/
noncomputable def ex3 : State := stepD exCfg ex2 0

end Cont

namespace Graph

theorem step_invalid {cfg : Config} {s : State} {a : ℤ}
    (hmem : s.agent_selection ∈ s.agents)
    (hterm : s.terminations s.agent_selection = false)
    (htrunc : s.truncations s.agent_selection = false)
    (hspace : ¬(0 ≤ a ∧ a < (cfg.n : ℤ))) :
    step cfg s (some a) = .error .invalidAction := by
  unfold step
  rw [if_pos hmem, if_neg (by simp [hterm, htrunc])]
  simp only [if_neg hspace]

theorem step_keyerr {cfg : Config} {s : State} (a : Option ℤ)
    (hmem : s.agent_selection ∉ s.agents) :
    step cfg s a = .error .keyError := by
  unfold step
  rw [if_neg hmem]

end Graph

/-- C8: in the graph variant, `reward` fails exactly when the graph has no
edge from the current to the new node, and no `step` call can ever surface
that failure, because `step` only invokes `reward` on destinations drawn
from the neighbor list of the collector's current node. -/
theorem claimC8_edge_error_iff_and_unreachable (cfg : Graph.Config)
    (s : Graph.State) :
    (∀ u v, Graph.rewardFails (Graph.reward cfg s u v) = (cfg.adj u v).isNone) ∧
    (∀ a, Graph.isEdgeErr (Graph.step cfg s a) = false) := by
  constructor
  · intro u v
    unfold Graph.reward Graph.rewardFails
    cases hadj : cfg.adj u v <;> rfl
  · intro a
    by_cases hmem : s.agent_selection ∈ s.agents
    · by_cases hdead :
        (s.terminations s.agent_selection ||
          s.truncations s.agent_selection) = true
      · rw [Graph.step_dead a hmem (Bool.or_eq_true_iff.mp hdead)]
        rfl
      · have hor := Bool.or_eq_false_iff.mp (Bool.eq_false_iff.mpr hdead)
        cases a with
        | none =>
          rw [Graph.step_live_none hmem hor.1 hor.2]
          rfl
        | some a =>
          by_cases hspace : 0 ≤ a ∧ a < (cfg.n : ℤ)
          · by_cases hnbr :
              a.toNat ∈ Graph.neighbors cfg (s.collectors s.agent_selection).label
            · have hsome := (List.mem_filter.mp hnbr).2
              obtain ⟨w, hw⟩ := Option.isSome_iff_exists.mp (by simpa using hsome)
              by_cases hpt : a.toNat ∈ cfg.pointLabels
              · rw [Graph.step_live_point hmem hor.1 hor.2 hspace hnbr hw hpt]
                rfl
              · rw [Graph.step_live_nonpoint hmem hor.1 hor.2 hspace hnbr hw hpt]
                rfl
            · rw [Graph.step_live_nonnbr hmem hor.1 hor.2 hspace hnbr]
              rfl
          · rw [Graph.step_invalid hmem hor.1 hor.2 hspace]
            rfl
    · rw [Graph.step_keyerr a hmem]
      rfl

/-- C9: in both variants, resetting with a given seed yields an observation
mapping that does not depend on any prior episode state at all (so two
`reset` calls in immediate succession with the same seed return identical
observation mappings), and the collection counters observed after a reset
are all zero. -/
theorem claimC9_reset_deterministic (gcfg : Graph.Config)
    (gs gt : Graph.State) (gseed : Option Nat) (ccfg : Cont.Config)
    (cs ct : Cont.State) (cseed : Option Nat) :
    Graph.resetObs gcfg gs gseed = Graph.resetObs gcfg gt gseed ∧
    Cont.resetObs ccfg cs cseed = Cont.resetObs ccfg ct cseed ∧
    (Cont.stateObs ccfg (Cont.reset ccfg cs cseed)).collected =
      List.replicate ccfg.pointPos.length 0 ∧
    ∀ ag, (Graph.observe gcfg (Graph.reset gcfg gs gseed) ag).collected =
      List.replicate gcfg.pointLabels.length 0 := by
  refine ⟨rfl, rfl, ?_, ?_⟩
  · show (ccfg.pointPos.map fun p => Cont.Point.mk p 0).map
        (fun p => p.count) = _
    rw [List.map_map]
    exact List.map_const' _ 0
  · intro ag
    show gcfg.pointLabels.map (fun _ => 0) = _
    exact List.map_const' _ 0

/-- C10: in the graph variant, a `step(None)` call for a live agent never
raises: it bypasses the action-space check and is a zero-reward no-op that
performs no move and no collection, while still incrementing the iteration
counter, running the termination update, and advancing the turn. -/
theorem claimC10_none_action_noop (cfg : Graph.Config) (s : Graph.State)
    (hmem : s.agent_selection ∈ s.agents)
    (hterm : s.terminations s.agent_selection = false)
    (htrunc : s.truncations s.agent_selection = false) :
    isOk (Graph.step cfg s none) = true ∧
    (Graph.stepD cfg s none).rewards s.agent_selection = 0 ∧
    (Graph.stepD cfg s none).collectors = s.collectors ∧
    (Graph.stepD cfg s none).counts = s.counts ∧
    (Graph.stepD cfg s none).iteration = s.iteration + 1 ∧
    (Graph.stepD cfg s none).agent_selection = (selNext s.agents s.selCur).1 ∧
    (Graph.stepD cfg s none).terminations s.agent_selection =
      (if cfg.maxCollect.getD s.agent_selection 0 ≤
          (s.collectors s.agent_selection).total then true
        else s.terminations s.agent_selection) := by
  have hstep := @Graph.step_live_none cfg s hmem hterm htrunc
  have hD : Graph.stepD cfg s none =
      Graph.finish cfg s (s.collectors s.agent_selection) s.counts 0 := by
    unfold Graph.stepD
    rw [hstep]
    rfl
  refine ⟨by rw [hstep]; rfl, ?_, ?_, ?_, ?_, ?_, ?_⟩
  · rw [hD, Graph.finish_rewards_self]
  · rw [hD, Graph.finish_collectors_eq]
    funext b
    split_ifs with hb
    · rw [hb]
    · rfl
  · rw [hD, Graph.finish_counts]
  · rw [hD, Graph.finish_iteration]
  · rw [hD, Graph.finish_selection]
  · rw [hD, Graph.finish_terminations_self]

/-- Witness for C10 at a concrete input: the freshly reset example
environment B, whose selected agent 0 is live. -/
theorem claimC10_none_action_noop_witness :
    isOk (Graph.step Graph.exCfgB Graph.exB0 none) = true ∧
    (Graph.stepD Graph.exCfgB Graph.exB0 none).rewards
      Graph.exB0.agent_selection = 0 ∧
    (Graph.stepD Graph.exCfgB Graph.exB0 none).collectors =
      Graph.exB0.collectors ∧
    (Graph.stepD Graph.exCfgB Graph.exB0 none).counts = Graph.exB0.counts ∧
    (Graph.stepD Graph.exCfgB Graph.exB0 none).iteration =
      Graph.exB0.iteration + 1 ∧
    (Graph.stepD Graph.exCfgB Graph.exB0 none).agent_selection =
      (selNext Graph.exB0.agents Graph.exB0.selCur).1 ∧
    (Graph.stepD Graph.exCfgB Graph.exB0 none).terminations
      Graph.exB0.agent_selection =
      (if Graph.exCfgB.maxCollect.getD Graph.exB0.agent_selection 0 ≤
          (Graph.exB0.collectors Graph.exB0.agent_selection).total then true
        else Graph.exB0.terminations Graph.exB0.agent_selection) :=
  claimC10_none_action_noop Graph.exCfgB Graph.exB0 (by decide) (by decide)
    (by decide)

/-- C6: in the graph variant, the action mask returned by `observe` has one
entry per graph node and, for every state and every agent, holds 1 exactly at
the indices that are graph-neighbors of the node currently occupied by that
agent's collector and 0 everywhere else; it is a pure function of the current
graph and collector position, recomputed on each `observe` call. -/
theorem claimC6_action_mask (cfg : Graph.Config) (s : Graph.State)
    (agent : Nat) :
    (Graph.observe cfg s agent).action_mask.length = cfg.n ∧
    ∀ i, i < cfg.n →
      (Graph.observe cfg s agent).action_mask.getD i 0 =
        (if (cfg.adj (s.collectors agent).label i).isSome then 1 else 0) := by
  constructor
  · show (Graph.actionMask cfg s agent).length = cfg.n
    unfold Graph.actionMask
    rw [foldl_set_length, List.length_replicate]
  · intro i hi
    show (Graph.actionMask cfg s agent).getD i 0 = _
    unfold Graph.actionMask
    rw [foldl_set_getD _ _ _ (by rw [List.length_replicate]; exact hi)]
    have hrep : (List.replicate cfg.n (0 : Nat)).getD i 0 = 0 := by
      rw [List.getD_eq_getElem?_getD, List.getElem?_replicate, if_pos hi]
      rfl
    by_cases hsome : (cfg.adj (s.collectors agent).label i).isSome
    · rw [if_pos (show i ∈ Graph.neighbors cfg (s.collectors agent).label from
        List.mem_filter.mpr ⟨List.mem_range.mpr hi, by simpa using hsome⟩),
        if_pos hsome]
    · rw [if_neg (show i ∉ Graph.neighbors cfg (s.collectors agent).label from
        fun hmemn => hsome (by simpa using (List.mem_filter.mp hmemn).2)),
        hrep, if_neg hsome]

/-- Witness for C6 at a concrete input: in the example environment B after
reset, node 1 is the unique neighbor of agent 0's node. -/
theorem claimC6_action_mask_witness :
    (Graph.observe Graph.exCfgB Graph.exB0 0).action_mask.getD 1 0 =
      (if (Graph.exCfgB.adj (Graph.exB0.collectors 0).label 1).isSome then 1
        else 0) :=
  (claimC6_action_mask Graph.exCfgB Graph.exB0 0).2 1 (by decide)

/-- C5: in both variants, a `step` called while the selected agent is already
terminated or truncated only advances the scheduler bookkeeping and prunes
the dead agent: every point's collection counter, every collector, and the
reward entries are unchanged by the call (dead-step path modelled from the
spec §4.4/§4.5).  In the graph variant the iteration counter is also
untouched; in the continuous variant the selection itself is left unchanged. -/
theorem claimC5_dead_step_frame (gcfg : Graph.Config) (gs : Graph.State)
    (ga : Option ℤ) (ccfg : Cont.Config) (cs : Cont.State) (ca : ℤ)
    (hgmem : gs.agent_selection ∈ gs.agents)
    (hgdead : gs.terminations gs.agent_selection = true ∨
      gs.truncations gs.agent_selection = true)
    (hcmem : cs.agent_selection ∈ cs.agents)
    (hcdead : cs.terminations cs.agent_selection = true ∨
      cs.truncations cs.agent_selection = true) :
    isOk (Graph.step gcfg gs ga) = true ∧
    (Graph.stepD gcfg gs ga).collectors = gs.collectors ∧
    (Graph.stepD gcfg gs ga).counts = gs.counts ∧
    (Graph.stepD gcfg gs ga).rewards = gs.rewards ∧
    (Graph.stepD gcfg gs ga).iteration = gs.iteration ∧
    (Graph.stepD gcfg gs ga).agents = gs.agents.erase gs.agent_selection ∧
    isOk (Cont.step ccfg cs ca) = true ∧
    (Cont.stepD ccfg cs ca).collectors = cs.collectors ∧
    (Cont.stepD ccfg cs ca).points = cs.points ∧
    (Cont.stepD ccfg cs ca).rewards = cs.rewards ∧
    (Cont.stepD ccfg cs ca).agents = cs.agents.erase cs.agent_selection ∧
    (Cont.stepD ccfg cs ca).agent_selection = cs.agent_selection := by
  have hgstep := @Graph.step_dead gcfg gs ga hgmem hgdead
  have hgD : Graph.stepD gcfg gs ga =
      Graph.deadAdvance (Graph.wasDeadStep gs) := by
    unfold Graph.stepD
    rw [hgstep]
    rfl
  have hcstep := @Cont.step_dead_cont ccfg cs ca hcmem hcdead
  have hcD : Cont.stepD ccfg cs ca = Cont.wasDeadStep cs := by
    unfold Cont.stepD
    rw [hcstep]
    rfl
  refine ⟨by rw [hgstep]; rfl, ?_, ?_, ?_, ?_, ?_, by rw [hcstep]; rfl,
    ?_, ?_, ?_, ?_, ?_⟩
  · rw [hgD, Graph.deadAdvance_collectors, Graph.wasDeadStep_collectors]
  · rw [hgD, Graph.deadAdvance_counts, Graph.wasDeadStep_counts]
  · rw [hgD, Graph.deadAdvance_rewards, Graph.wasDeadStep_rewards]
  · rw [hgD, Graph.deadAdvance_iteration, Graph.wasDeadStep_iteration]
  · rw [hgD, Graph.deadAdvance_agents, Graph.wasDeadStep_agents]
  · rw [hcD]
    rfl
  · rw [hcD]
    rfl
  · rw [hcD]
    rfl
  · rw [hcD, Cont.wasDeadStep_agents_cont]
  · rw [hcD]
    rfl

/-- Witness for C5 at concrete inputs: the graph example run B after agent 0
terminated, and the continuous example run after agent 0 terminated and the
turn came back around to it. -/
theorem claimC5_dead_step_frame_witness :
    isOk (Graph.step Graph.exCfgB Graph.exB1 none) = true ∧
    (Graph.stepD Graph.exCfgB Graph.exB1 none).collectors =
      Graph.exB1.collectors ∧
    (Graph.stepD Graph.exCfgB Graph.exB1 none).counts = Graph.exB1.counts ∧
    (Graph.stepD Graph.exCfgB Graph.exB1 none).rewards = Graph.exB1.rewards ∧
    (Graph.stepD Graph.exCfgB Graph.exB1 none).iteration =
      Graph.exB1.iteration ∧
    (Graph.stepD Graph.exCfgB Graph.exB1 none).agents =
      Graph.exB1.agents.erase Graph.exB1.agent_selection ∧
    isOk (Cont.step Cont.exCfg Cont.ex2 0) = true ∧
    (Cont.stepD Cont.exCfg Cont.ex2 0).collectors = Cont.ex2.collectors ∧
    (Cont.stepD Cont.exCfg Cont.ex2 0).points = Cont.ex2.points ∧
    (Cont.stepD Cont.exCfg Cont.ex2 0).rewards = Cont.ex2.rewards ∧
    (Cont.stepD Cont.exCfg Cont.ex2 0).agents =
      Cont.ex2.agents.erase Cont.ex2.agent_selection ∧
    (Cont.stepD Cont.exCfg Cont.ex2 0).agent_selection =
      Cont.ex2.agent_selection :=
  claimC5_dead_step_frame Graph.exCfgB Graph.exB1 none Cont.exCfg Cont.ex2 0
    (by decide) (Or.inl (by decide)) (by decide) (Or.inl (by decide))

/-- C2: the two variants handle an invalid action differently, and both
behaviors hold: a live-agent `step` of the continuous variant raises on any
action outside the declared `Discrete(n_points)` space, while a live-agent
`step` of the graph variant on an in-space action that is not a neighbor of
the collector's current node raises nothing, records reward exactly 0, and
performs no move and no collection. -/
theorem claimC2_invalid_action_divergence (ccfg : Cont.Config)
    (cs : Cont.State) (b : ℤ) (gcfg : Graph.Config) (gs : Graph.State) (a : ℤ)
    (hcmem : cs.agent_selection ∈ cs.agents)
    (hcterm : cs.terminations cs.agent_selection = false)
    (hctrunc : cs.truncations cs.agent_selection = false)
    (hout : ¬(0 ≤ b ∧ b < (ccfg.pointPos.length : ℤ)))
    (hgmem : gs.agent_selection ∈ gs.agents)
    (hgterm : gs.terminations gs.agent_selection = false)
    (hgtrunc : gs.truncations gs.agent_selection = false)
    (hspace : 0 ≤ a ∧ a < (gcfg.n : ℤ))
    (hnbr : a.toNat ∉ Graph.neighbors gcfg
      (gs.collectors gs.agent_selection).label) :
    Cont.step ccfg cs b = .error .invalidAction ∧
    isOk (Graph.step gcfg gs (some a)) = true ∧
    (Graph.stepD gcfg gs (some a)).rewards gs.agent_selection = 0 ∧
    (Graph.stepD gcfg gs (some a)).collectors = gs.collectors ∧
    (Graph.stepD gcfg gs (some a)).counts = gs.counts := by
  have hgstep := Graph.step_live_nonnbr hgmem hgterm hgtrunc hspace hnbr
  have hgD : Graph.stepD gcfg gs (some a) =
      Graph.finish gcfg gs (gs.collectors gs.agent_selection) gs.counts 0 := by
    unfold Graph.stepD
    rw [hgstep]
    rfl
  refine ⟨Cont.step_invalid_cont hcmem hcterm hctrunc hout, by rw [hgstep]; rfl,
    ?_, ?_, ?_⟩
  · rw [hgD, Graph.finish_rewards_self]
  · rw [hgD, Graph.finish_collectors_eq]
    funext x
    split_ifs with hx
    · rw [hx]
    · rfl
  · rw [hgD, Graph.finish_counts]

/-- Witness for C2 at concrete inputs: action 5 is outside the continuous
example's two-point action space; in graph example A, node 0 is inside the
raw action space but not a neighbor of agent 0's node 0. -/
theorem claimC2_invalid_action_divergence_witness :
    Cont.step Cont.exCfg Cont.ex0 5 = .error .invalidAction ∧
    isOk (Graph.step Graph.exCfgA Graph.exA0 (some 0)) = true ∧
    (Graph.stepD Graph.exCfgA Graph.exA0 (some 0)).rewards
      Graph.exA0.agent_selection = 0 ∧
    (Graph.stepD Graph.exCfgA Graph.exA0 (some 0)).collectors =
      Graph.exA0.collectors ∧
    (Graph.stepD Graph.exCfgA Graph.exA0 (some 0)).counts =
      Graph.exA0.counts :=
  claimC2_invalid_action_divergence Cont.exCfg Cont.ex0 5 Graph.exCfgA
    Graph.exA0 0 (by decide) (by decide) (by decide) (by decide) (by decide)
    (by decide) (by decide) (by decide) (by decide)

/-- C1: for every live-agent step targeting a reachable destination, the
recorded reward is computed from the destination point's collection counter
as it was before this step's own collection (which lands afterwards), it is
never positive (for lawful nonnegative costs), and when the destination is a
designated point it is exactly the negated base cost on first collection and
exactly the negated base cost plus `cheat_cost * caught_probability` on
re-collection — the base cost being the edge weight in the graph variant and
the Euclidean distance in the continuous variant. -/
theorem claimC1_reward_model (gcfg : Graph.Config) (gs : Graph.State) (a : ℤ)
    (w : ℚ) (ccfg : Cont.Config) (cs : Cont.State) (b : ℤ)
    (hgmem : gs.agent_selection ∈ gs.agents)
    (hgterm : gs.terminations gs.agent_selection = false)
    (hgtrunc : gs.truncations gs.agent_selection = false)
    (hspace : 0 ≤ a ∧ a < (gcfg.n : ℤ))
    (hnbr : a.toNat ∈ Graph.neighbors gcfg
      (gs.collectors gs.agent_selection).label)
    (hw : gcfg.adj (gs.collectors gs.agent_selection).label a.toNat = some w)
    (hw0 : 0 ≤ w)
    (hccp : 0 ≤ Graph.cheatingCost gcfg)
    (hcmem : cs.agent_selection ∈ cs.agents)
    (hcterm : cs.terminations cs.agent_selection = false)
    (hctrunc : cs.truncations cs.agent_selection = false)
    (hbspace : 0 ≤ b ∧ b < (ccfg.pointPos.length : ℤ))
    (hlen : b.toNat < cs.points.length)
    (hccp2 : 0 ≤ Cont.cheatingCost ccfg) :
    isOk (Graph.step gcfg gs (some a)) = true ∧
    (a.toNat ∈ gcfg.pointLabels ∧ gs.counts a.toNat = 0 →
      (Graph.stepD gcfg gs (some a)).rewards gs.agent_selection = -w) ∧
    (a.toNat ∈ gcfg.pointLabels ∧ 0 < gs.counts a.toNat →
      (Graph.stepD gcfg gs (some a)).rewards gs.agent_selection =
        -(w + Graph.cheatingCost gcfg)) ∧
    (Graph.stepD gcfg gs (some a)).rewards gs.agent_selection ≤ 0 ∧
    (a.toNat ∈ gcfg.pointLabels →
      (Graph.stepD gcfg gs (some a)).counts a.toNat = gs.counts a.toNat + 1) ∧
    isOk (Cont.step ccfg cs b) = true ∧
    ((cs.points.getD b.toNat Cont.dummyPoint).count = 0 →
      (Cont.stepD ccfg cs b).rewards cs.agent_selection =
        -(Cont.dist (cs.collectors cs.agent_selection).pos
          (cs.points.getD b.toNat Cont.dummyPoint).pos)) ∧
    (0 < (cs.points.getD b.toNat Cont.dummyPoint).count →
      (Cont.stepD ccfg cs b).rewards cs.agent_selection =
        -(Cont.dist (cs.collectors cs.agent_selection).pos
            (cs.points.getD b.toNat Cont.dummyPoint).pos +
          ((Cont.cheatingCost ccfg : ℚ) : ℝ))) ∧
    (Cont.stepD ccfg cs b).rewards cs.agent_selection ≤ 0 ∧
    ((Cont.stepD ccfg cs b).points.getD b.toNat Cont.dummyPoint).count =
      (cs.points.getD b.toNat Cont.dummyPoint).count + 1 := by
  have hcstep := Cont.step_live hcmem hcterm hctrunc hbspace
  have hcD : Cont.stepD ccfg cs b = Cont.finish ccfg cs b.toNat := by
    unfold Cont.stepD
    rw [hcstep]
    rfl
  have hcrew : (Cont.stepD ccfg cs b).rewards cs.agent_selection =
      Cont.reward ccfg (cs.collectors cs.agent_selection)
        (cs.points.getD b.toNat Cont.dummyPoint) := by
    rw [hcD, Cont.finish_rewards_eq_cont]
    simp
  have hGrewards : ∀ C K,
      (Graph.finish gcfg gs C K
        (-(w + if a.toNat ∈ gcfg.pointLabels ∧
            Graph.isCollected gs.counts a.toNat then
          Graph.cheatingCost gcfg else 0))).rewards gs.agent_selection =
        -(w + if a.toNat ∈ gcfg.pointLabels ∧
            Graph.isCollected gs.counts a.toNat then
          Graph.cheatingCost gcfg else 0) := by
    intro C K
    rw [Graph.finish_rewards_self]
  by_cases hpt : a.toNat ∈ gcfg.pointLabels
  · have hgstep := Graph.step_live_point hgmem hgterm hgtrunc hspace hnbr hw hpt
    have hgD : Graph.stepD gcfg gs (some a) =
        Graph.finish gcfg gs
          (Graph.collectPoint ((gs.collectors gs.agent_selection).move
            (Graph.nodePos gcfg a.toNat) a.toNat) gs.counts a.toNat).1
          (Graph.collectPoint ((gs.collectors gs.agent_selection).move
            (Graph.nodePos gcfg a.toNat) a.toNat) gs.counts a.toNat).2
          (-(w + if a.toNat ∈ gcfg.pointLabels ∧
              Graph.isCollected gs.counts a.toNat then
            Graph.cheatingCost gcfg else 0)) := by
      unfold Graph.stepD
      rw [hgstep]
      rfl
    refine ⟨by rw [hgstep]; rfl, ?_, ?_, ?_, ?_, by rw [hcstep]; rfl,
      ?_, ?_, ?_, ?_⟩
    · rintro ⟨-, hcount⟩
      rw [hgD, hGrewards, if_neg (fun hcol => by
        rw [Graph.isCollected, hcount] at hcol
        exact absurd hcol.2 (by decide)), add_zero]
    · rintro ⟨-, hcount⟩
      rw [hgD, hGrewards,
        if_pos ⟨hpt, by rw [Graph.isCollected]; simpa using hcount⟩]
    · rw [hgD, hGrewards]
      have hite : (0 : ℚ) ≤ (if a.toNat ∈ gcfg.pointLabels ∧
          Graph.isCollected gs.counts a.toNat then
        Graph.cheatingCost gcfg else 0) := by
        split_ifs
        · exact hccp
        · exact le_refl 0
      linarith
    · intro _
      rw [hgD, Graph.finish_counts]
      unfold Graph.collectPoint
      simp
    · intro hcount
      rw [hcrew]
      unfold Cont.reward
      rw [if_neg (by rw [Cont.Point.isCollected, hcount]; decide), add_zero]
    · intro hcount
      rw [hcrew]
      unfold Cont.reward
      rw [if_pos (by rw [Cont.Point.isCollected]; simpa using hcount)]
    · rw [hcrew]
      unfold Cont.reward
      have hd := Real.sqrt_nonneg
        ((((cs.collectors cs.agent_selection).pos.1 -
            (cs.points.getD b.toNat Cont.dummyPoint).pos.1) ^ 2 +
          ((cs.collectors cs.agent_selection).pos.2 -
            (cs.points.getD b.toNat Cont.dummyPoint).pos.2) ^ 2 : ℚ) : ℝ)
      have hite : (0 : ℝ) ≤ (if (cs.points.getD b.toNat
          Cont.dummyPoint).isCollected then
        ((Cont.cheatingCost ccfg : ℚ) : ℝ) else 0) := by
        split_ifs
        · exact_mod_cast hccp2
        · exact le_refl 0
      unfold Cont.dist
      linarith
    · rw [hcD, Cont.finish_points, List.getD_eq_getElem?_getD,
        List.getElem?_set, if_pos rfl, if_pos hlen]
      rfl
  · have hgstep :=
      Graph.step_live_nonpoint hgmem hgterm hgtrunc hspace hnbr hw hpt
    have hgD : Graph.stepD gcfg gs (some a) =
        Graph.finish gcfg gs
          ((gs.collectors gs.agent_selection).move
            (Graph.nodePos gcfg a.toNat) a.toNat) gs.counts
          (-(w + if a.toNat ∈ gcfg.pointLabels ∧
              Graph.isCollected gs.counts a.toNat then
            Graph.cheatingCost gcfg else 0)) := by
      unfold Graph.stepD
      rw [hgstep]
      rfl
    refine ⟨by rw [hgstep]; rfl, ?_, ?_, ?_, ?_, by rw [hcstep]; rfl,
      ?_, ?_, ?_, ?_⟩
    · rintro ⟨hmem, -⟩
      exact absurd hmem hpt
    · rintro ⟨hmem, -⟩
      exact absurd hmem hpt
    · rw [hgD, hGrewards]
      have hite : (0 : ℚ) ≤ (if a.toNat ∈ gcfg.pointLabels ∧
          Graph.isCollected gs.counts a.toNat then
        Graph.cheatingCost gcfg else 0) := by
        split_ifs
        · exact hccp
        · exact le_refl 0
      linarith
    · intro hmem
      exact absurd hmem hpt
    · intro hcount
      rw [hcrew]
      unfold Cont.reward
      rw [if_neg (by rw [Cont.Point.isCollected, hcount]; decide), add_zero]
    · intro hcount
      rw [hcrew]
      unfold Cont.reward
      rw [if_pos (by rw [Cont.Point.isCollected]; simpa using hcount)]
    · rw [hcrew]
      unfold Cont.reward
      have hd := Real.sqrt_nonneg
        ((((cs.collectors cs.agent_selection).pos.1 -
            (cs.points.getD b.toNat Cont.dummyPoint).pos.1) ^ 2 +
          ((cs.collectors cs.agent_selection).pos.2 -
            (cs.points.getD b.toNat Cont.dummyPoint).pos.2) ^ 2 : ℚ) : ℝ)
      have hite : (0 : ℝ) ≤ (if (cs.points.getD b.toNat
          Cont.dummyPoint).isCollected then
        ((Cont.cheatingCost ccfg : ℚ) : ℝ) else 0) := by
        split_ifs
        · exact_mod_cast hccp2
        · exact le_refl 0
      unfold Cont.dist
      linarith
    · rw [hcD, Cont.finish_points, List.getD_eq_getElem?_getD,
        List.getElem?_set, if_pos rfl, if_pos hlen]
      rfl

/-- Witness for C1 at concrete inputs: in graph example B the live agent 0
moves to the neighboring uncollected point at node 1 (edge weight 1); in the
continuous example the live agent 0 targets uncollected point 1. -/
theorem claimC1_reward_model_witness :
    isOk (Graph.step Graph.exCfgB Graph.exB0 (some 1)) = true ∧
    ((1 : ℤ).toNat ∈ Graph.exCfgB.pointLabels ∧
        Graph.exB0.counts (1 : ℤ).toNat = 0 →
      (Graph.stepD Graph.exCfgB Graph.exB0 (some 1)).rewards
        Graph.exB0.agent_selection = -1) ∧
    ((1 : ℤ).toNat ∈ Graph.exCfgB.pointLabels ∧
        0 < Graph.exB0.counts (1 : ℤ).toNat →
      (Graph.stepD Graph.exCfgB Graph.exB0 (some 1)).rewards
        Graph.exB0.agent_selection = -(1 + Graph.cheatingCost Graph.exCfgB)) ∧
    (Graph.stepD Graph.exCfgB Graph.exB0 (some 1)).rewards
      Graph.exB0.agent_selection ≤ 0 ∧
    ((1 : ℤ).toNat ∈ Graph.exCfgB.pointLabels →
      (Graph.stepD Graph.exCfgB Graph.exB0 (some 1)).counts (1 : ℤ).toNat =
        Graph.exB0.counts (1 : ℤ).toNat + 1) ∧
    isOk (Cont.step Cont.exCfg Cont.ex0 1) = true ∧
    ((Cont.ex0.points.getD (1 : ℤ).toNat Cont.dummyPoint).count = 0 →
      (Cont.stepD Cont.exCfg Cont.ex0 1).rewards Cont.ex0.agent_selection =
        -(Cont.dist (Cont.ex0.collectors Cont.ex0.agent_selection).pos
          (Cont.ex0.points.getD (1 : ℤ).toNat Cont.dummyPoint).pos)) ∧
    (0 < (Cont.ex0.points.getD (1 : ℤ).toNat Cont.dummyPoint).count →
      (Cont.stepD Cont.exCfg Cont.ex0 1).rewards Cont.ex0.agent_selection =
        -(Cont.dist (Cont.ex0.collectors Cont.ex0.agent_selection).pos
            (Cont.ex0.points.getD (1 : ℤ).toNat Cont.dummyPoint).pos +
          ((Cont.cheatingCost Cont.exCfg : ℚ) : ℝ))) ∧
    (Cont.stepD Cont.exCfg Cont.ex0 1).rewards Cont.ex0.agent_selection ≤ 0 ∧
    ((Cont.stepD Cont.exCfg Cont.ex0 1).points.getD (1 : ℤ).toNat
        Cont.dummyPoint).count =
      (Cont.ex0.points.getD (1 : ℤ).toNat Cont.dummyPoint).count + 1 :=
  claimC1_reward_model Graph.exCfgB Graph.exB0 1 1 Cont.exCfg Cont.ex0 1
    (by decide) (by decide) (by decide) (by decide) (by decide) (by decide)
    (by decide) (by norm_num [Graph.cheatingCost, Graph.exCfgB]) (by decide)
    (by decide) (by decide) (by decide) (by decide)
    (by norm_num [Cont.cheatingCost, Cont.exCfg])

namespace Cont

theorem finish_collectors_self_cont (cfg : Config) (s : State) (i : Nat) :
    (finish cfg s i).collectors s.agent_selection =
      (collectPoint
        { s.collectors s.agent_selection with
            pos := (s.points.getD i dummyPoint).pos }
        (s.points.getD i dummyPoint)).1 := by
  rw [finish_collectors_eq_cont]
  simp

theorem finish_terminations_self_cont (cfg : Config) (s : State) (i : Nat) :
    (finish cfg s i).terminations s.agent_selection =
      if cfg.maxCollect.getD s.agent_selection 0 ≤
          (collectPoint
            { s.collectors s.agent_selection with
                pos := (s.points.getD i dummyPoint).pos }
            (s.points.getD i dummyPoint)).1.total then true
      else s.terminations s.agent_selection := by
  rw [finish_terminations_eq_cont]
  split_ifs with h
  · simp
  · rfl

end Cont

/-- Counterexample to C3 as stated: in graph example A, agent 1 has a
configured budget of 0, so after the episode's first step (taken by agent 0)
agent 1's `total_points_collected` already meets its budget, yet its
terminated flag is still false — the flag is only updated on the acting
agent's own step. -/
theorem claimC3_counterexample :
    isOk (Graph.step Graph.exCfgA Graph.exA0 (some 1)) = true ∧
    Graph.exCfgA.maxCollect.getD 1 0 ≤ (Graph.exA1.collectors 1).total ∧
    Graph.exA1.terminations 1 = false := by
  refine ⟨by decide, by decide, by decide⟩

/-- C3 as amended: the acting agent's terminated flag is updated exactly on
its own live steps, becoming true precisely when its post-step
`total_points_collected` meets its budget; every other agent's flag is
untouched by the step, and a true flag never reverts to false at any later
step while the agent is still tracked.  (For budgets of at least 1 this is
equivalent to the claim's phrasing, since the collection count only changes
on the agent's own steps.) -/
theorem claimC3_termination_flag (gcfg : Graph.Config) (gs gs' : Graph.State)
    (ga : Option ℤ) (gt gt' : Graph.State) (gb : Option ℤ)
    (ccfg : Cont.Config) (cs cs' : Cont.State) (ca : ℤ)
    (ct ct' : Cont.State) (cb : ℤ)
    (hgterm : gs.terminations gs.agent_selection = false)
    (hgtrunc : gs.truncations gs.agent_selection = false)
    (hgstep : Graph.step gcfg gs ga = .ok gs')
    (hgstep2 : Graph.step gcfg gt gb = .ok gt')
    (hcterm : cs.terminations cs.agent_selection = false)
    (hctrunc : cs.truncations cs.agent_selection = false)
    (hcstep : Cont.step ccfg cs ca = .ok cs')
    (hcstep2 : Cont.step ccfg ct cb = .ok ct') :
    (gs'.terminations gs.agent_selection =
      decide (gcfg.maxCollect.getD gs.agent_selection 0 ≤
        (gs'.collectors gs.agent_selection).total)) ∧
    (∀ x, x ≠ gs.agent_selection → gs'.terminations x = gs.terminations x) ∧
    (∀ x, x ∈ gt'.agents → gt.terminations x = true →
      gt'.terminations x = true) ∧
    (cs'.terminations cs.agent_selection =
      decide (ccfg.maxCollect.getD cs.agent_selection 0 ≤
        (cs'.collectors cs.agent_selection).total)) ∧
    (∀ x, x ≠ cs.agent_selection → cs'.terminations x = cs.terminations x) ∧
    (∀ x, x ∈ ct'.agents → ct.terminations x = true →
      ct'.terminations x = true) := by
  have hglive : ¬((gs.terminations gs.agent_selection ||
      gs.truncations gs.agent_selection) = true) := by
    simp [hgterm, hgtrunc]
  have hclive : ¬((cs.terminations cs.agent_selection ||
      cs.truncations cs.agent_selection) = true) := by
    simp [hcterm, hctrunc]
  rcases Graph.step_ok_cases hgstep with ⟨_, hdead, _⟩ | ⟨_, _, c, k, r, rfl⟩
  · exact absurd hdead hglive
  rcases Cont.step_ok_cases_cont hcstep with ⟨_, hdead, _⟩ | ⟨_, _, rfl⟩
  · exact absurd hdead hclive
  refine ⟨?_, ?_, ?_, ?_, ?_, ?_⟩
  · rw [Graph.finish_terminations_self, Graph.finish_collectors_self, hgterm]
    split_ifs with h
    · exact (decide_eq_true h).symm
    · exact (decide_eq_false h).symm
  · intro x hx
    exact Graph.finish_terminations_other gcfg gs c k r x hx
  · intro x _ hxterm
    rcases Graph.step_ok_cases hgstep2 with ⟨_, _, rfl⟩ | ⟨_, _, c2, k2, r2, rfl⟩
    · rw [Graph.deadAdvance_terminations, Graph.wasDeadStep_terminations]
      exact hxterm
    · by_cases hxsel : x = gt.agent_selection
      · subst hxsel
        rw [Graph.finish_terminations_self, hxterm]
        split_ifs <;> rfl
      · rw [Graph.finish_terminations_other gcfg gt c2 k2 r2 x hxsel]
        exact hxterm
  · rw [Cont.finish_terminations_self_cont, Cont.finish_collectors_self_cont]
    split_ifs with h
    · exact (decide_eq_true h).symm
    · rw [hcterm]
      exact (decide_eq_false h).symm
  · intro x hx
    exact Cont.finish_terminations_other_cont ccfg cs ca.toNat x hx
  · intro x _ hxterm
    rcases Cont.step_ok_cases_cont hcstep2 with ⟨_, _, rfl⟩ | ⟨_, _, rfl⟩
    · exact hxterm
    · by_cases hxsel : x = ct.agent_selection
      · subst hxsel
        rw [Cont.finish_terminations_eq_cont]
        split_ifs with h
        · simp
        · exact hxterm
      · rw [Cont.finish_terminations_other_cont ccfg ct cb.toNat x hxsel]
        exact hxterm

/-- Witness for the amended C3 at concrete inputs: agent 0's collecting step
in graph example B and continuous example, plus the subsequent dead steps as
the arbitrary persistence steps. -/
theorem claimC3_termination_flag_witness :
    ((Graph.stepD Graph.exCfgB Graph.exB0 (some 1)).terminations
        Graph.exB0.agent_selection =
      decide (Graph.exCfgB.maxCollect.getD Graph.exB0.agent_selection 0 ≤
        ((Graph.stepD Graph.exCfgB Graph.exB0 (some 1)).collectors
          Graph.exB0.agent_selection).total)) ∧
    (∀ x, x ≠ Graph.exB0.agent_selection →
      (Graph.stepD Graph.exCfgB Graph.exB0 (some 1)).terminations x =
        Graph.exB0.terminations x) ∧
    (∀ x, x ∈ (Graph.stepD Graph.exCfgB Graph.exB1 none).agents →
      Graph.exB1.terminations x = true →
      (Graph.stepD Graph.exCfgB Graph.exB1 none).terminations x = true) ∧
    ((Cont.stepD Cont.exCfg Cont.ex0 0).terminations
        Cont.ex0.agent_selection =
      decide (Cont.exCfg.maxCollect.getD Cont.ex0.agent_selection 0 ≤
        ((Cont.stepD Cont.exCfg Cont.ex0 0).collectors
          Cont.ex0.agent_selection).total)) ∧
    (∀ x, x ≠ Cont.ex0.agent_selection →
      (Cont.stepD Cont.exCfg Cont.ex0 0).terminations x =
        Cont.ex0.terminations x) ∧
    (∀ x, x ∈ (Cont.stepD Cont.exCfg Cont.ex2 0).agents →
      Cont.ex2.terminations x = true →
      (Cont.stepD Cont.exCfg Cont.ex2 0).terminations x = true) :=
  claimC3_termination_flag Graph.exCfgB Graph.exB0
    (Graph.stepD Graph.exCfgB Graph.exB0 (some 1)) (some 1) Graph.exB1
    (Graph.stepD Graph.exCfgB Graph.exB1 none) none Cont.exCfg Cont.ex0
    (Cont.stepD Cont.exCfg Cont.ex0 0) 0 Cont.ex2
    (Cont.stepD Cont.exCfg Cont.ex2 0) 0 (by decide) (by decide) rfl rfl
    (by decide) (by decide) rfl rfl

/-- Counterexample to C4 as stated: in the continuous variant, after agent 0
reaches its budget, agent 1 acts, and the turn returns to the dead agent 0,
the dead step prunes agent 0 but performs no resynchronization, leaving
`agent_selection` pointing at the pruned agent even though `agents` is still
non-empty. -/
theorem claimC4_counterexample :
    isOk (Cont.step Cont.exCfg Cont.ex0 0) = true ∧
    isOk (Cont.step Cont.exCfg Cont.ex1 1) = true ∧
    isOk (Cont.step Cont.exCfg Cont.ex2 0) = true ∧
    Cont.ex3.agents ≠ [] ∧
    Cont.ex3.agent_selection ∉ Cont.ex3.agents := by
  refine ⟨by decide, by decide, by decide, by decide, by decide⟩

/-- C4 as amended: the selection invariant holds in the graph variant — after
reset and after every step leaving `agents` non-empty, `agent_selection` is a
member of `agents`, the dead path's explicit extra `next()` restoring it when
the pruned agent was selected.  The continuous variant lacks that guard and
violates the invariant after a dead-step prune
(see `claimC4_counterexample`). -/
theorem claimC4_selection_membership (cfg : Graph.Config) (s : Graph.State)
    (h : Graph.Reach cfg s) (hne : s.agents ≠ []) :
    s.agent_selection ∈ s.agents :=
  Graph.reach_sel_mem h hne

/-- Witness for the amended C4 at a concrete input: the freshly reset example
environment B. -/
theorem claimC4_selection_membership_witness :
    Graph.exB0.agent_selection ∈ Graph.exB0.agents :=
  claimC4_selection_membership Graph.exCfgB Graph.exB0
    (Graph.Reach.reset Graph.exDummy (some 0)) (by decide)

/-- Counterexample to C7 as stated: in graph example B, after the single
agent terminates and its dead step prunes it, the conjunction of the
truncated flags over the (now empty) tracked-agent set is vacuously true,
yet the episode-level `truncate` flag — not recomputed on the dead path — is
still false. -/
theorem claimC7_counterexample :
    isOk (Graph.step Graph.exCfgB Graph.exB0 (some 1)) = true ∧
    isOk (Graph.step Graph.exCfgB Graph.exB1 none) = true ∧
    Graph.exB2.agents = [] ∧
    (Graph.exB2.agents.all fun a => Graph.exB2.truncations a) = true ∧
    Graph.exB2.truncate = false := by
  refine ⟨by decide, by decide, by decide, by decide, by decide⟩

/-- C7 as amended: at every reachable state of either variant in which at
least one agent is still tracked, the episode-level `terminate`/`truncate`
flags agree with the conjunction of the tracked agents' individual
terminated/truncated flags.  (Once every agent has been pruned the
truncation half can fail, the conjunction over the empty set being vacuously
true; see `claimC7_counterexample`.) -/
theorem claimC7_episode_flags (gcfg : Graph.Config) (gs : Graph.State)
    (ccfg : Cont.Config) (cs : Cont.State) (hgk : 0 < gcfg.numAgents)
    (hg : Graph.Reach gcfg gs) (hgne : gs.agents ≠ [])
    (hck : 0 < ccfg.numAgents) (hc : Cont.Reach ccfg cs)
    (hcne : cs.agents ≠ []) :
    gs.terminate = (gs.agents.all fun a => gs.terminations a) ∧
    gs.truncate = (gs.agents.all fun a => gs.truncations a) ∧
    cs.terminate = (cs.agents.all fun a => cs.terminations a) ∧
    cs.truncate = (cs.agents.all fun a => cs.truncations a) := by
  have hgi := Graph.reach_inv hgk hg
  have hci := Cont.reach_inv_cont hck hc
  obtain ⟨x, hx⟩ := List.exists_mem_of_ne_nil gs.agents hgne
  obtain ⟨y, hy⟩ := List.exists_mem_of_ne_nil cs.agents hcne
  refine ⟨hgi.2.2.1 hgne, ?_, hci.2.2.1 hcne, ?_⟩
  · rw [hgi.2.1]
    exact (all_eq_false_of_mem hx (hgi.1 x hx)).symm
  · rw [hci.2.1]
    exact (all_eq_false_of_mem hy (hci.1 y hy)).symm

/-- Witness for the amended C7 at concrete inputs: the freshly reset example
environments. -/
theorem claimC7_episode_flags_witness :
    Graph.exB0.terminate =
      (Graph.exB0.agents.all fun a => Graph.exB0.terminations a) ∧
    Graph.exB0.truncate =
      (Graph.exB0.agents.all fun a => Graph.exB0.truncations a) ∧
    Cont.ex0.terminate =
      (Cont.ex0.agents.all fun a => Cont.ex0.terminations a) ∧
    Cont.ex0.truncate =
      (Cont.ex0.agents.all fun a => Cont.ex0.truncations a) :=
  claimC7_episode_flags Graph.exCfgB Graph.exB0 Cont.exCfg Cont.ex0
    (by decide) (Graph.Reach.reset Graph.exDummy (some 0)) (by decide)
    (by decide) (Cont.Reach.reset Cont.exDummy (some 0)) (by decide)
